import Mathlib

/-!
Verification development for the `greet` command-line argument parser
(single-header C++ library, `greet.hpp`).

The parser's data model and token-level algorithm are shallowly embedded
here.  C strings (`const char *`) are modelled as `List Char`; reading the
terminating NUL of an exhausted string is modelled by `cstrHead`, which
returns `'\x00'` on the empty list, exactly as dereferencing the
terminator does in C.  The one place where the C++ scans a pointer past a
string's terminator (the cluster scan entered on the lone token `"-"`) is
modelled by keeping the exhausted string empty, so the subsequent
`argv[0][0] == '\0'` test succeeds.

Naming follows the source: `argtype`, `parse_helper`, `greet`, the
`_set_flag` / `already_set` state, the `NORMAL`/`BOOLEAN`/`COUNTER`/`VECTOR`
option kinds (here `single`/`flagK`/`counterK`/`multi`).
-/

namespace Greet

/-- A C string: the characters before the terminating NUL. -/
abbrev CStr := List Char

/-- Reading `s[0]` of a C string: the terminator when exhausted. -/
def cstrHead (s : CStr) : Char := s.headD '\x00'

/-- Advancing a C string pointer by one (`++p`); advancing an exhausted
string is left exhausted (the single undefined-behaviour point of the
source, reached only for the lone token `"-"`). -/
def cstrTail (s : CStr) : CStr := s.tail

/-- The conversion error kinds `std::from_chars` can report
(`std::errc::invalid_argument`, `std::errc::result_out_of_range`). -/
inductive Errc where
  | invalidArgument
  | resultOutOfRange
deriving DecidableEq, Repr

/-- The four option kinds of the descriptor layer: `NORMAL` (single value),
`BOOLEAN` (flag), `COUNTER`, `VECTOR` (multi value). -/
inductive OptKind where
  | single
  | flagK
  | counterK
  | multi
deriving DecidableEq, Repr

/-- One digit of `std::from_chars`: its value in the given base, if valid. -/
def digitVal (base : Nat) (c : Char) : Option Nat :=
  let v : Option Nat :=
    if '0' ≤ c ∧ c ≤ '9' then some (c.toNat - '0'.toNat)
    else if 'a' ≤ c ∧ c ≤ 'z' then some (c.toNat - 'a'.toNat + 10)
    else if 'A' ≤ c ∧ c ≤ 'Z' then some (c.toNat - 'A'.toNat + 10)
    else none
  match v with
  | some n => if n < base then some n else none
  | none => none

/-- The digit-accumulation loop of `std::from_chars` for an unsigned
integer type: consume the maximal prefix of valid digits, returning the
accumulated value and the unconsumed remainder. -/
def fromCharsLoop (base : Nat) (acc : Nat) : CStr → Nat × CStr
  | [] => (acc, [])
  | c :: cs =>
    match digitVal base c with
    | some d => fromCharsLoop base (acc * base + d) cs
    | none => (acc, c :: cs)

/-- `std::from_chars(first, last, v, base)` for an unsigned integer type
whose maximal representable value is `max`: `invalid_argument` when no
valid digit starts the range, `result_out_of_range` when the digit string
overflows, else the value and the pointer past the consumed digits. -/
def fromChars (max base : Nat) (s : CStr) : Except Errc (Nat × CStr) :=
  match digitVal base (cstrHead s) with
  | none => .error .invalidArgument
  | some _ =>
    let (v, rest) := fromCharsLoop base 0 s
    if v ≤ max then .ok (v, rest) else .error .resultOutOfRange

/-- `string_converter<OptT>::from_str` for an unsigned integer `OptT` with
maximal value `max` (greet.hpp lines 161-180): `"0x"` prefix selects base
16 on the text after the prefix, a leading `"0"` otherwise selects base 8
on the text after the `"0"`, else base 10; the whole remaining text must
be consumed. -/
def int_from_str (max : Nat) (s : CStr) : Except Errc Nat :=
  let result :=
    if cstrHead s = '0' then
      if cstrHead (cstrTail s) = 'x' then fromChars max 16 (s.drop 2)
      else fromChars max 8 (s.drop 1)
    else fromChars max 10 s
  match result with
  | .ok (v, rest) => if rest = [] then .ok v else .error .invalidArgument
  | .error e => .error e

/-- `string_converter<std::string>::from_str`: identity, always succeeds. -/
def string_from_str (s : CStr) : Except Errc CStr := .ok s

/-- A converter usable by an option: text to stored value (both kept as
C strings in the model; integers are stored via their decimal rendering). -/
def intConv (max : Nat) (s : CStr) : Except Errc CStr :=
  (int_from_str max s).map (fun n => (toString n).data)

/-- One declared option (the immutable part of an `opt_wrapper` plus the
flags recorded on it).  `shrt = none` models `_shrt == '\0'`, `lng = none`
models an empty `_lng`. -/
structure OptSpec where
  shrt : Option Char
  lng : Option CStr
  kind : OptKind
  required : Bool
  allowHyphen : Bool
  conv : CStr → Except Errc CStr
  init : CStr

/-- Placeholder spec for out-of-range indexing (never hit on well-formed
input). -/
def defaultSpec : OptSpec :=
  { shrt := none, lng := none, kind := .flagK, required := false,
    allowHyphen := false, conv := string_from_str, init := [] }

/-- The virtual `need_argument()`: true for `NORMAL` and `VECTOR` wrappers,
false from the `opt_base` default used by `BOOLEAN` and `COUNTER`. -/
def needArgument (spec : OptSpec) : Bool :=
  match spec.kind with
  | .single | .multi => true
  | _ => false

/-- The virtual `get_allow_hyphen()`: only `NORMAL` and `VECTOR` wrappers
override the `false` default of `opt_base`. -/
def optAllowHyphen (spec : OptSpec) : Bool :=
  match spec.kind with
  | .single | .multi => spec.allowHyphen
  | _ => false

/-- The virtual `get_required()`: only the `NORMAL` wrapper overrides the
`false` default of `opt_base`. -/
def optRequired (spec : OptSpec) : Bool :=
  match spec.kind with
  | .single => spec.required
  | _ => false

/-- The mutable parse-time state of one option: the `_set_flag` of
`opt_base` plus the caller's bound field (one field per kind, mirroring
the four wrapper specialisations). -/
structure OptState where
  setFlag : Bool := false
  single : CStr := []
  flagVal : Bool := false
  count : Nat := 0
  values : List CStr := []
deriving DecidableEq, Repr

/-- Initial state of an option: `_set_flag = false`, bound field at its
pre-parse (default-initialised or `.def(...)`-assigned) value. -/
def initOf (spec : OptSpec) : OptState := { single := spec.init }

/-- The virtual `set(value)` of the four `opt_wrapper` specialisations
(greet.hpp lines 640-652, 701-706, 754-758, 861-872).  Returns the
`std::errc` (`none` for success) and the resulting state:
* `NORMAL`: convert; on success assign the field and raise `_set_flag`,
  on failure return the error with nothing changed;
* `BOOLEAN`: assign `true`, raise `_set_flag`;
* `COUNTER`: increment; `_set_flag` is never raised;
* `VECTOR`: convert; on success append, on failure return the error with
  nothing changed; `_set_flag` is never raised.
A `none` value models the `set(nullptr)` call used for no-value options;
for `NORMAL`/`VECTOR` that call never happens (guarded by
`need_argument()`). -/
def optSet (spec : OptSpec) (os : OptState) (v : Option CStr) :
    Option Errc × OptState :=
  match spec.kind with
  | .single =>
    match v with
    | some s =>
      match spec.conv s with
      | .ok w => (none, { os with single := w, setFlag := true })
      | .error e => (some e, os)
    | none => (some .invalidArgument, os)
  | .flagK => (none, { os with flagVal := true, setFlag := true })
  | .counterK => (none, { os with count := os.count + 1 })
  | .multi =>
    match v with
    | some s =>
      match spec.conv s with
      | .ok w => (none, { os with values := os.values ++ [w] })
      | .error e => (some e, os)
    | none => (some .invalidArgument, os)

/-- The token classifier `_detail::argtype` (greet.hpp lines 62-68):
exactly `"--"` is `ENDARG`; a `"--"` prefix is `LONG`; a `"-"` prefix is
`SHORT`; anything else is `ARGUMENT`. -/
inductive ArgType where
  | ARGUMENT
  | ENDARG
  | SHORT
  | LONG
deriving DecidableEq, Repr

/-- Classify one raw token, translated clause for clause from
`_detail::argtype`. -/
def argtype (s : CStr) : ArgType :=
  if s = ['-', '-'] then .ENDARG
  else if ['-', '-'].isPrefixOf s then .LONG
  else if ['-'].isPrefixOf s then .SHORT
  else .ARGUMENT

/-- Does a spec answer to this flag string?  The registry inserts
`"-" + shrt` and `"--" + lng` as keys (greet.hpp lines 1228-1240). -/
def flagMatches (spec : OptSpec) (flag : CStr) : Bool :=
  (match spec.shrt with
   | some c => flag = ['-', c]
   | none => false) ||
  (match spec.lng with
   | some l => flag = '-' :: '-' :: l
   | none => false)

/-- Lookup in the flag table (`meta::query`): index of the first spec whose
short or long flag equals the given flag string.  On a successfully built
registry the keys are unique, so first-match agrees with the hash map. -/
def queryIdx : List OptSpec → CStr → Option Nat
  | [], _ => none
  | spec :: rest, flag =>
    if flagMatches spec flag then some 0
    else (queryIdx rest flag).map (· + 1)

/-- The built-in `-h`/`--help` pseudo-option (a `BOOLEAN` bound to
`meta::_help`). -/
def helpSpec : OptSpec :=
  { shrt := some 'h', lng := some "help".data, kind := .flagK,
    required := false, allowHyphen := false, conv := string_from_str,
    init := [] }

/-- The built-in `-V`/`--version` pseudo-option (a `BOOLEAN` bound to
`meta::_version`). -/
def versionSpec : OptSpec :=
  { shrt := some 'V', lng := some "version".data, kind := .flagK,
    required := false, allowHyphen := false, conv := string_from_str,
    init := [] }

/-- A successfully built registry: the user's options in declaration
order, plus whether a `greet::ignored` sink was supplied. -/
structure Meta where
  userOpts : List OptSpec
  hasIgnored : Bool

/-- The full descriptor list: the `meta` constructor appends the help and
version descriptors after the user's options. -/
def Meta.optsL (m : Meta) : List OptSpec := m.userOpts ++ [helpSpec, versionSpec]

/-- Index of the help descriptor (whose bound bool is `meta::_help`). -/
def Meta.helpIdx (m : Meta) : Nat := m.userOpts.length

/-- Index of the version descriptor (bound to `meta::_version`). -/
def Meta.versionIdx (m : Meta) : Nat := m.userOpts.length + 1

/-- `meta::query` on the full descriptor list. -/
def Meta.query (m : Meta) (flag : CStr) : Option Nat := queryIdx m.optsL flag

/-- The `_required_opts` list built by the `meta` constructor: indices of
descriptors answering `true` to the virtual `get_required()`, in
declaration order (greet.hpp line 1242). -/
def Meta.requiredIdxs (m : Meta) : List Nat :=
  (List.range m.optsL.length).filter
    (fun i => optRequired (m.optsL.getD i defaultSpec))

/-- The mutable state of a whole parse: one `OptState` per descriptor
(same order as `Meta.optsL`) plus the ignored-arguments sink. -/
structure PState where
  states : List OptState
  ignoredArgs : List CStr
deriving DecidableEq, Repr

/-- State of the descriptor at index `i`. -/
def PState.stateOf (st : PState) (i : Nat) : OptState := st.states.getD i {}

/-- Replace the state of the descriptor at index `i`. -/
def PState.updState (st : PState) (i : Nat) (os : OptState) : PState :=
  { st with states := st.states.set i os }

/-- State at the start of parsing. -/
def initState (m : Meta) : PState :=
  { states := m.optsL.map initOf, ignoredArgs := [] }

/-- Is `meta::_help` set (the flag value of the help descriptor)? -/
def helpSet (m : Meta) (st : PState) : Bool := (st.stateOf m.helpIdx).flagVal

/-- Is `meta::_version` set? -/
def versionSet (m : Meta) (st : PState) : Bool := (st.stateOf m.versionIdx).flagVal

/-- The parse errors the engine can report (each `print_helper` method
that aborts the parse).  `missingOptions` carries the offending
descriptor indices in declaration order. -/
inductive ParseError where
  | unexpectedArgument (arg : CStr)
  | missingValue (flag : CStr)
  | unexpectedValue (flag : CStr) (value : CStr)
  | invalidValue (flag : CStr) (value : CStr) (ec : Errc)
  | multipleUse (flag : CStr)
  | missingOptions (idxs : List Nat)
deriving DecidableEq, Repr

/-- Result of `parse_helper` / of processing part of a token: either the
updated state, the remaining argument vector and whether a value token
was consumed, or a fatal error together with the state at that moment. -/
inductive PHRes where
  | ok (st : PState) (args : List CStr) (consumed : Bool)
  | err (e : ParseError) (st : PState)
deriving DecidableEq, Repr

/-- The in-token value after the `'='` skip of `parse_helper`: when the
value is the remainder of the current token (`newarg = false`) and starts
with `'='`, the pointer is advanced past it (`argv[0] += 1`); a value
taken from the next token is used verbatim. -/
def stripEq (newarg : Bool) (v : CStr) : CStr :=
  if !newarg && (cstrHead v == '=') then cstrTail v else v

/-- The `parse_helper` lambda of `greet` (greet.hpp lines 1293-1321),
translated line for line.  `args` is the remaining argument vector as
currently pointed at: for `newarg = false` its head is the in-token
remainder (`argv[0]` advanced into the current token), for `newarg = true`
the current token has already been removed and its head is the next whole
token.  Returns `consumed = true` exactly when a value was taken and
`remove_one_arg` ran. -/
def parse_helper (m : Meta) (argty : ArgType) (st : PState) (args : List CStr)
    (flag : CStr) (newarg : Bool) : PHRes :=
  match m.query flag with
  | none => .err (.unexpectedArgument flag) st
  | some i =>
    if needArgument (m.optsL.getD i defaultSpec) then
      match args with
      | [] => .err (.missingValue flag) st
      | v :: rest =>
        if newarg && (cstrHead v == '-') &&
            !optAllowHyphen (m.optsL.getD i defaultSpec) then
          .err (.missingValue flag) st
        else
          if (st.stateOf i).setFlag then .err (.multipleUse flag) st
          else
            match optSet (m.optsL.getD i defaultSpec) (st.stateOf i)
                (some (stripEq newarg v)) with
            | (some e, _) => .err (.invalidValue flag (stripEq newarg v) e) st
            | (none, os) => .ok (st.updState i os) rest true
    else
      if (argty == .LONG) && !newarg && (cstrHead (args.headD []) == '=') then
        .err (.unexpectedValue flag (args.headD [])) st
      else if (st.stateOf i).setFlag then .err (.multipleUse flag) st
      else
        .ok (st.updState i
              (optSet (m.optsL.getD i defaultSpec) (st.stateOf i) none).2)
          args false

/-- The cluster scan of `case _detail::SHORT` (greet.hpp lines 1324-1336):
`cluster` is the current token after the leading `'-'` and the already
consumed flag characters, `rest` the tokens after the current one.  When
at most one character remains, the candidate flag is followed by the
terminator, so the current token is dropped and the value (if any) must
come from the next token; otherwise the remainder stays available as an
inline value or as further cluster characters. -/
def shortLoop (m : Meta) (st : PState) : List Char → List CStr → PHRes
  | c :: c2 :: cs, rest =>
    match parse_helper m .SHORT st ((c2 :: cs) :: rest) ['-', c] false with
    | .err e st' => .err e st'
    | .ok st' args' true => .ok st' args' true
    | .ok st' _ false => shortLoop m st' (c2 :: cs) rest
  | cluster, rest =>
    parse_helper m .SHORT st rest ['-', cstrHead cluster] true

/-- Split a `LONG` token at its first `'='` (`std::strchr`): the flag part
before it and the remainder starting at the `'='` itself. -/
def splitAtEq : CStr → Option (CStr × CStr)
  | [] => none
  | c :: cs =>
    if c = '=' then some ([], c :: cs)
    else (splitAtEq cs).map (fun p => (c :: p.1, p.2))

/-- Process one whole token of the main loop of `greet` (the `switch` on
the classified token, greet.hpp lines 1323-1365).  `ok st args _` means
the loop continues with that state and argument vector. -/
def stepToken (m : Meta) (st : PState) (tok : CStr) (rest : List CStr) : PHRes :=
  match argtype tok with
  | .SHORT => shortLoop m st (cstrTail tok) rest
  | .LONG =>
    match splitAtEq tok with
    | some (flagPart, suffix) => parse_helper m .LONG st (suffix :: rest) flagPart false
    | none => parse_helper m .LONG st rest tok true
  | .ARGUMENT => .err (.unexpectedArgument tok) st
  | .ENDARG =>
    .ok { st with ignoredArgs :=
            if m.hasIgnored then st.ignoredArgs ++ rest else st.ignoredArgs }
      [] false

/-- The end-of-loop required-option scan (greet.hpp lines 1381-1384):
collect every required descriptor not marked already-set, in declaration
order, and fail with `missingOptions` when any exist. -/
inductive Outcome where
  | ok (st : PState)
  | helpEx (st : PState)
  | versionEx (st : PState)
  | err (e : ParseError) (st : PState)
deriving DecidableEq, Repr

/-- Terminal check after the main loop: report all missing required
options together, or succeed. -/
def checkRequired (m : Meta) (st : PState) : Outcome :=
  let missing := m.requiredIdxs.filter (fun i => !(st.stateOf i).setFlag)
  if missing.isEmpty then .ok st else .err (.missingOptions missing) st

/-- The `while (argc)` main loop of `greet`, fuelled: each iteration
processes one token (and possibly a value token), then short-circuits on
help or version exactly as the source checks after every token.  Fuel
equal to the argument count always suffices (`mainLoopF_total`). -/
def mainLoopF (m : Meta) : Nat → PState → List CStr → Option Outcome
  | _, st, [] => some (checkRequired m st)
  | 0, _, _ :: _ => none
  | fuel + 1, st, tok :: rest =>
    match stepToken m st tok rest with
    | .err e st' => some (.err e st')
    | .ok st' args' _ =>
      if helpSet m st' then some (.helpEx st')
      else if versionSet m st' then some (.versionEx st')
      else mainLoopF m fuel st' args'

theorem parse_helper_args_len {m : Meta} {a : ArgType} {st : PState}
    {args : List CStr} {flag : CStr} {n : Bool} {st' : PState}
    {args' : List CStr} {c : Bool}
    (h : parse_helper m a st args flag n = .ok st' args' c) :
    args'.length ≤ args.length := by
  unfold parse_helper at h
  repeat' split at h
  all_goals simp_all [Nat.le_succ]

theorem parse_helper_consumed {m : Meta} {a : ArgType} {st : PState}
    {args : List CStr} {flag : CStr} {n : Bool} {st' : PState}
    {args' : List CStr}
    (h : parse_helper m a st args flag n = .ok st' args' true) :
    args = args.headD [] :: args' := by
  unfold parse_helper at h
  repeat' split at h
  all_goals simp_all

theorem parse_helper_not_consumed {m : Meta} {a : ArgType} {st : PState}
    {args : List CStr} {flag : CStr} {n : Bool} {st' : PState}
    {args' : List CStr}
    (h : parse_helper m a st args flag n = .ok st' args' false) :
    args' = args := by
  unfold parse_helper at h
  repeat' split at h
  all_goals simp_all

theorem parse_helper_long_noeq {m : Meta} {st : PState} {args : List CStr}
    {flag : CStr} {st' : PState} {args' : List CStr}
    (h : parse_helper m .LONG st args flag false = .ok st' args' false) :
    (cstrHead (args.headD []) == '=') = false := by
  unfold parse_helper at h
  repeat' split at h
  all_goals simp_all

theorem splitAtEq_head : ∀ {tok flagPart suffix : CStr},
    splitAtEq tok = some (flagPart, suffix) → cstrHead suffix = '='
  | [], _, _, h => by cases h
  | c :: cs, flagPart, suffix, h => by
      unfold splitAtEq at h
      split at h
      · next hc => injection h with h1; cases h1; exact hc
      · cases hsp : splitAtEq cs with
        | none => rw [hsp] at h; cases h
        | some p =>
            rw [hsp] at h
            injection h with h1
            cases h1
            exact splitAtEq_head (show splitAtEq cs = some (p.1, p.2) by rw [hsp])

theorem shortLoop_len {m : Meta} : ∀ (cluster : List Char) (st : PState)
    (rest : List CStr) {st' : PState} {args' : List CStr} {c : Bool},
    shortLoop m st cluster rest = .ok st' args' c → args'.length ≤ rest.length
  | [], _, _, _, _, _, h => by
      unfold shortLoop at h; exact parse_helper_args_len h
  | [_], _, _, _, _, _, h => by
      unfold shortLoop at h; exact parse_helper_args_len h
  | c0 :: c1 :: cs, st, rest, st', args', c, h => by
      unfold shortLoop at h
      split at h
      · cases h
      · next heq =>
          injection h with h1 h2 h3
          subst h2
          have hcons := parse_helper_consumed heq
          injection hcons with hv hrest
          simp [← hrest]
      · next heq => exact shortLoop_len (c1 :: cs) _ rest h

theorem stepToken_len {m : Meta} {st : PState} {tok : CStr} {rest : List CStr}
    {st' : PState} {args' : List CStr} {c : Bool}
    (h : stepToken m st tok rest = .ok st' args' c) :
    args'.length ≤ rest.length := by
  unfold stepToken at h
  split at h
  · exact shortLoop_len _ _ _ h
  · split at h
    · next flagPart suffix hsp =>
        cases c with
        | true =>
            have hcons := parse_helper_consumed h
            injection hcons with hv hrest
            simp [← hrest]
        | false =>
            have hne := parse_helper_long_noeq h
            have hs := splitAtEq_head hsp
            simp [hs] at hne
    · exact parse_helper_args_len h
  · cases h
  · injection h with h1 h2 h3; subst h2; simp

theorem mainLoopF_total {m : Meta} : ∀ (fuel : Nat) (st : PState)
    (args : List CStr), args.length ≤ fuel → (mainLoopF m fuel st args).isSome
  | _, _, [], _ => by simp [mainLoopF]
  | 0, _, t :: rest, hle => by simp at hle
  | fuel + 1, st, t :: rest, hle => by
      unfold mainLoopF
      split
      · simp
      · next st' args' c heq =>
          split
          · simp
          · split
            · simp
            · exact mainLoopF_total fuel st' args'
                (Nat.le_trans (stepToken_len heq) (Nat.le_of_succ_le_succ hle))

/-- The parse entry point `greet::greet` (greet.hpp lines 1283-1387),
after the program name has been removed: run the main loop over the raw
argument vector, then validate required options. -/
def greet (m : Meta) (args : List CStr) : Outcome :=
  (mainLoopF m args.length (initState m) args).get
    (mainLoopF_total args.length (initState m) args (Nat.le_refl _))

theorem greet_eq_mainLoopF (m : Meta) (args : List CStr) :
    mainLoopF m args.length (initState m) args = some (greet m args) := by
  unfold greet
  exact (Option.some_get _).symm

/-! Concrete registries used to exercise the engine, mirroring how the
shipped example declares its options. -/

/-- Build a string-valued option spec. -/
def mkOpt (k : OptKind) (c : Option Char) (l : Option String) (req hy : Bool) :
    OptSpec :=
  { shrt := c, lng := l.map String.data, kind := k, required := req,
    allowHyphen := hy, conv := string_from_str, init := [] }

/-- Shorthand for token literals. -/
def strL (s : String) : CStr := s.data

/-- `-f` and `-g` no-value flags around a value-needing `-a`. -/
def fagMeta : Meta :=
  ⟨[mkOpt .flagK (some 'f') none false false,
    mkOpt .single (some 'a') none false false,
    mkOpt .flagK (some 'g') none false false], false⟩

/-- A single counter option `-c`. -/
def cntMeta : Meta := ⟨[mkOpt .counterK (some 'c') none false false], false⟩

/-- A single-use string option `-n` without allow-hyphen. -/
def nMeta : Meta := ⟨[mkOpt .single (some 'n') none false false], false⟩

/-- A lone boolean flag `-x`. -/
def xMeta : Meta := ⟨[mkOpt .flagK (some 'x') none false false], false⟩

/-- A boolean flag `-x` next to an option registered under the short flag
`'='` (a printable non-hyphen character, hence accepted by the registry). -/
def xeqMeta : Meta :=
  ⟨[mkOpt .flagK (some 'x') none false false,
    mkOpt .single (some '=') none false false], false⟩

/-- Two required single-value options. -/
def reqMeta : Meta :=
  ⟨[mkOpt .single (some 'r') none true false,
    mkOpt .single (some 'u') none true false], false⟩

/-- A single-value option `-z` bound to an 8-bit unsigned integer. -/
def zIntMeta : Meta :=
  ⟨[{ shrt := some 'z', lng := none, kind := .single, required := false,
      allowHyphen := false, conv := intConv 255, init := [] }], false⟩

/-- The option set of claim C8: `-n` (long `--name`) a required string,
`-p` (long `--place`) a string vector with allow-hyphen, `-t` a string
vector with allow-hyphen, and an ignored-arguments sink. -/
def c8Meta : Meta :=
  ⟨[mkOpt .single (some 'n') (some "name") true false,
    mkOpt .multi (some 'p') (some "place") false true,
    mkOpt .multi (some 't') none false true], true⟩

/-- The argument vector of claim C8 (the shipped acceptance test's
command line). -/
def c8Args : List CStr :=
  [strL "-n", strL "Neely Kaeden", strL "--place=new york", strL "-p",
   strL "-chicago", strL "-p", strL "--", strL "-tgttttp=-san-diego",
   strL "--", strL "test-double-hyphen", strL "-short", strL "--long",
   strL "--", strL "after-another-double-hyphen"]

/-- The `place` vector of a successful parse outcome (descriptor index 1
of `c8Meta`), if the outcome is a success. -/
def placeValues : Outcome → Option (List CStr)
  | .ok st => some ((st.stateOf 1).values)
  | _ => none

/-- Discriminator: is this helper result an `unexpected_value` abort? -/
def isUnexpectedValueRes : PHRes → Bool
  | .err (.unexpectedValue _ _) _ => true
  | _ => false

/-- Discriminator: is this outcome a `used_mutiple` abort? -/
def isMultipleUseOutcome : Outcome → Bool
  | .err (.multipleUse _) _ => true
  | _ => false

theorem parse_helper_short_no_unexpval (m : Meta) (st : PState)
    (args : List CStr) (flag : CStr) (newarg : Bool) :
    isUnexpectedValueRes (parse_helper m .SHORT st args flag newarg) = false := by
  unfold parse_helper
  repeat' split
  all_goals simp_all [isUnexpectedValueRes]

theorem parse_helper_newarg_no_unexpval (m : Meta) (a : ArgType) (st : PState)
    (args : List CStr) (flag : CStr) :
    isUnexpectedValueRes (parse_helper m a st args flag true) = false := by
  unfold parse_helper
  repeat' split
  all_goals simp_all [isUnexpectedValueRes]

theorem shortLoop_no_unexpval (m : Meta) : ∀ (cluster : List Char)
    (st : PState) (rest : List CStr),
    isUnexpectedValueRes (shortLoop m st cluster rest) = false
  | [], st, rest => by
      unfold shortLoop; exact parse_helper_short_no_unexpval m st rest _ true
  | [_], st, rest => by
      unfold shortLoop; exact parse_helper_short_no_unexpval m st rest _ true
  | c0 :: c1 :: cs, st, rest => by
      unfold shortLoop
      cases heq : parse_helper m .SHORT st ((c1 :: cs) :: rest) ['-', c0] false with
      | err e st' =>
          have h := parse_helper_short_no_unexpval m st ((c1 :: cs) :: rest) ['-', c0] false
          rw [heq] at h
          simpa using h
      | ok st' args' c =>
          cases c with
          | true => simp [isUnexpectedValueRes]
          | false => simpa using shortLoop_no_unexpval m (c1 :: cs) st' rest

/-- Claim C4: a counter accumulates identically whether its short flag is
repeated as separate tokens or clustered in one token: both `-c -c -c`
and `-ccc` succeed and leave the count at exactly 3. -/
theorem counter_cluster_equals_repetition :
    greet cntMeta [strL "-c", strL "-c", strL "-c"] =
      .ok ⟨[{ count := 3 }, {}, {}], []⟩ ∧
    greet cntMeta [strL "-ccc"] = .ok ⟨[{ count := 3 }, {}, {}], []⟩ ∧
    (PState.stateOf ⟨[{ count := 3 }, {}, {}], []⟩ 0).count = 3 := by
  refine ⟨by decide, by decide, by decide⟩

/-- Claim C7 counterexample: the classifier puts the one-character token
`"-"` in the `SHORT` class, not `ARGUMENT` as claimed. -/
theorem argtype_hyphen_is_short :
    argtype ['-'] = .SHORT ∧ argtype ['-'] ≠ .ARGUMENT := by decide

/-- Claim C7 as amended: a token that does not start with `'-'` (in
particular the empty token and any one-character token other than `"-"`)
is classified `ARGUMENT`, and every `ARGUMENT` token reaching the top of
the main loop aborts with `UnexpectedArgument` for that token; the token
`"-"` itself is classified `SHORT`, enters the cluster scan, and (its
cluster being empty, so the NUL terminator is read as the candidate flag
character) aborts with `UnexpectedArgument` for the two-character flag
`['-', NUL]`. -/
theorem argument_classification :
    (∀ s : CStr, cstrHead s ≠ '-' → argtype s = .ARGUMENT) ∧
    (∀ (m : Meta) (st : PState) (tok : CStr) (rest : List CStr),
      argtype tok = .ARGUMENT →
      stepToken m st tok rest = .err (.unexpectedArgument tok) st) ∧
    argtype ['-'] = .SHORT ∧
    greet fagMeta [['-']] =
      .err (.unexpectedArgument ['-', '\x00']) (initState fagMeta) := by
  refine ⟨?_, ?_, by decide, by decide⟩
  · intro s hs
    cases s with
    | nil => decide
    | cons c cs =>
        simp only [cstrHead, List.headD_cons] at hs
        simp [argtype, List.isPrefixOf, hs, Ne.symm hs]
  · intro m st tok rest h
    unfold stepToken
    rw [h]

/-- Witness for the amended C7 at concrete inputs. -/
theorem argument_classification_witness :
    argtype (strL "abc") = .ARGUMENT ∧
    stepToken fagMeta (initState fagMeta) (strL "abc") [] =
      .err (.unexpectedArgument (strL "abc")) (initState fagMeta) := by
  exact ⟨argument_classification.1 (strL "abc") (by decide),
    argument_classification.2.1 fagMeta (initState fagMeta) (strL "abc") []
      (argument_classification.1 (strL "abc") (by decide))⟩

/-- Claim C8 counterexample: on the claimed configuration and argument
vector the parse does not produce the claimed `place` sequence — the
first `--` token is consumed as the value of the preceding `-p`
(allow-hyphen), and `-tgttttp=-san-diego` becomes the value of `-t`. -/
theorem c8_place_differs :
    placeValues (greet c8Meta c8Args) ≠
      some [strL "new york", strL "-chicago", strL "-tgttttp=-san-diego"] := by
  decide

/-- Claim C8 as amended: the parse succeeds with `name == "Neely Kaeden"`,
but `place == ["new york", "-chicago", "--"]` (the first bare `--` of the
vector is consumed as a `-p` value under allow-hyphen), `-t` accumulates
`["gttttp=-san-diego"]`, and the ignored-arguments sink receives exactly
the tokens after the second `--` of the vector (the first `--` that is
actually processed as a token). -/
theorem c8_parse_result :
    greet c8Meta c8Args =
      .ok ⟨[{ setFlag := true, single := strL "Neely Kaeden" },
            { values := [strL "new york", strL "-chicago", strL "--"] },
            { values := [strL "gttttp=-san-diego"] },
            {}, {}],
           [strL "test-double-hyphen", strL "-short", strL "--long",
            strL "--", strL "after-another-double-hyphen"]⟩ := by
  decide

/-- Claim C9: `UnexpectedValue` can only arise from a long-form token
carrying an inline `=`: the short-token cluster scan never reports it,
nor does any flag whose value would come from the next token; when a
no-value option's short flag is followed by `'='` in the same token, the
flag is applied and the scan continues with `'='` as the next candidate
flag character, so `-x=y` (with `-x` a flag) aborts with
`UnexpectedArgument` for `"-="` — unless `'='` is itself a registered
short flag, in which case parsing proceeds through it. -/
theorem unexpected_value_only_long :
    (∀ (m : Meta) (st : PState) (cluster : List Char) (rest : List CStr),
      isUnexpectedValueRes (shortLoop m st cluster rest) = false) ∧
    (∀ (m : Meta) (a : ArgType) (st : PState) (args : List CStr) (flag : CStr),
      isUnexpectedValueRes (parse_helper m a st args flag true) = false) ∧
    greet xMeta [strL "-x=y"] =
      .err (.unexpectedArgument ['-', '='])
        ⟨[{ setFlag := true, flagVal := true }, {}, {}], []⟩ ∧
    greet xeqMeta [strL "-x=y"] =
      .ok ⟨[{ setFlag := true, flagVal := true },
            { setFlag := true, single := ['y'] }, {}, {}], []⟩ := by
  exact ⟨fun m st cluster rest => shortLoop_no_unexpval m cluster st rest,
    fun m a st args flag => parse_helper_newarg_no_unexpval m a st args flag,
    by decide, by decide⟩

/-- Claim C1: scanning a short-flag cluster left to right, a flag that
needs no value is applied and the scan continues with the remaining
characters of the same token, while the first flag that needs a value
takes the entire remainder of the token as its value (after the one
leading `'='` skip) and ends the cluster; hence with `-f`, `-g` no-value
flags and `-a` value-needing, `-faxxxg` parses as `-f` then `-a` with
value `"xxxg"`, and `-g` is never processed. -/
theorem short_cluster_value_rule :
    (∀ (m : Meta) (st : PState) (c r : Char) (cs : List Char)
       (rest : List CStr) (i : Nat),
      m.query ['-', c] = some i →
      needArgument (m.optsL.getD i defaultSpec) = false →
      (st.stateOf i).setFlag = false →
      shortLoop m st (c :: r :: cs) rest =
        shortLoop m
          (st.updState i
            (optSet (m.optsL.getD i defaultSpec) (st.stateOf i) none).2)
          (r :: cs) rest) ∧
    (∀ (m : Meta) (st : PState) (c r : Char) (cs : List Char)
       (rest : List CStr) (i : Nat) (w : CStr),
      m.query ['-', c] = some i →
      needArgument (m.optsL.getD i defaultSpec) = true →
      (st.stateOf i).setFlag = false →
      (m.optsL.getD i defaultSpec).conv (stripEq false (r :: cs)) = .ok w →
      shortLoop m st (c :: r :: cs) rest =
        .ok (st.updState i
              (optSet (m.optsL.getD i defaultSpec) (st.stateOf i)
                (some (stripEq false (r :: cs)))).2)
          rest true) ∧
    greet fagMeta [strL "-faxxxg"] =
      .ok ⟨[{ setFlag := true, flagVal := true },
            { setFlag := true, single := strL "xxxg" },
            {}, {}, {}], []⟩ := by
  refine ⟨?_, ?_, by decide⟩
  · intro m st c r cs rest i hq hneed hset
    have hph : parse_helper m .SHORT st ((r :: cs) :: rest) ['-', c] false =
        .ok (st.updState i
              (optSet (m.optsL.getD i defaultSpec) (st.stateOf i) none).2)
          ((r :: cs) :: rest) false := by
      unfold parse_helper
      rw [hq]
      dsimp only
      set spec := m.optsL.getD i defaultSpec with hspec
      simp [hneed, hset, show (ArgType.SHORT == ArgType.LONG) = false from rfl]
    conv_lhs => rw [shortLoop]
    rw [hph]
  · intro m st c r cs rest i w hq hneed hset hconv
    have hph : parse_helper m .SHORT st ((r :: cs) :: rest) ['-', c] false =
        .ok (st.updState i
              (optSet (m.optsL.getD i defaultSpec) (st.stateOf i)
                (some (stripEq false (r :: cs)))).2)
          rest true := by
      unfold parse_helper
      rw [hq]
      dsimp only
      set spec := m.optsL.getD i defaultSpec with hspec
      cases hkind : spec.kind with
      | flagK => rw [needArgument, hkind] at hneed; cases hneed
      | counterK => rw [needArgument, hkind] at hneed; cases hneed
      | single => simp [hneed, hset, optSet, hkind, hconv]
      | multi => simp [hneed, hset, optSet, hkind, hconv]
    conv_lhs => rw [shortLoop]
    rw [hph]

/-- Witness for C1: `-a` (value-needing) at the head of the cluster
`axxxg` takes the whole remainder `"xxxg"` as its value and ends the
cluster. -/
theorem short_cluster_value_rule_witness :
    shortLoop fagMeta (initState fagMeta) ('a' :: strL "xxxg") [] =
      .ok ((initState fagMeta).updState 1
            (optSet (fagMeta.optsL.getD 1 defaultSpec)
              ((initState fagMeta).stateOf 1)
              (some (stripEq false (strL "xxxg")))).2)
        [] true :=
  short_cluster_value_rule.2.1 fagMeta (initState fagMeta) 'a' 'x'
    (strL "xxg") [] 1 (strL "xxxg") (by decide) (by decide) (by decide)
    (by rfl)

/-- Claim C3: a value-needing option with no inline value fails with
`MissingValue` when no next token exists, and when the next token starts
with `'-'` while the option does not allow hyphen values; when it does
allow hyphen values, the hyphen-leading next token is consumed verbatim
as the value. -/
theorem missing_value_rule :
    (∀ (m : Meta) (a : ArgType) (st : PState) (flag : CStr) (i : Nat),
      m.query flag = some i →
      needArgument (m.optsL.getD i defaultSpec) = true →
      parse_helper m a st [] flag true = .err (.missingValue flag) st) ∧
    (∀ (m : Meta) (a : ArgType) (st : PState) (v : CStr) (rest : List CStr)
       (flag : CStr) (i : Nat),
      m.query flag = some i →
      needArgument (m.optsL.getD i defaultSpec) = true →
      cstrHead v = '-' →
      optAllowHyphen (m.optsL.getD i defaultSpec) = false →
      parse_helper m a st (v :: rest) flag true =
        .err (.missingValue flag) st) ∧
    (∀ (m : Meta) (a : ArgType) (st : PState) (v : CStr) (rest : List CStr)
       (flag : CStr) (i : Nat) (w : CStr),
      m.query flag = some i →
      needArgument (m.optsL.getD i defaultSpec) = true →
      cstrHead v = '-' →
      optAllowHyphen (m.optsL.getD i defaultSpec) = true →
      (st.stateOf i).setFlag = false →
      (m.optsL.getD i defaultSpec).conv v = .ok w →
      parse_helper m a st (v :: rest) flag true =
        .ok (st.updState i
              (optSet (m.optsL.getD i defaultSpec) (st.stateOf i)
                (some v)).2)
          rest true) := by
  refine ⟨?_, ?_, ?_⟩
  · intro m a st flag i hq hneed
    unfold parse_helper
    rw [hq]
    dsimp only
    set spec := m.optsL.getD i defaultSpec with hspec
    simp [hneed]
  · intro m a st v rest flag i hq hneed hv hah
    unfold parse_helper
    rw [hq]
    dsimp only
    set spec := m.optsL.getD i defaultSpec with hspec
    simp [hneed, hv, hah]
  · intro m a st v rest flag i w hq hneed hv hah hset hconv
    unfold parse_helper
    rw [hq]
    dsimp only
    set spec := m.optsL.getD i defaultSpec with hspec
    cases hkind : spec.kind with
    | flagK => rw [needArgument, hkind] at hneed; cases hneed
    | counterK => rw [needArgument, hkind] at hneed; cases hneed
    | single => simp [hneed, hah, hset, stripEq, optSet, hkind, hconv]
    | multi => simp [hneed, hah, hset, stripEq, optSet, hkind, hconv]

/-- Witness for C3, on the C8 registry: `-n` (no allow-hyphen) at end of
input and before the hyphen-leading token `-chicago` both fail with
`MissingValue`; `-p` (allow-hyphen) consumes `-chicago` verbatim. -/
theorem missing_value_rule_witness :
    parse_helper c8Meta .SHORT (initState c8Meta) [] (strL "-n") true =
      .err (.missingValue (strL "-n")) (initState c8Meta) ∧
    parse_helper c8Meta .SHORT (initState c8Meta) [strL "-chicago"]
        (strL "-n") true =
      .err (.missingValue (strL "-n")) (initState c8Meta) ∧
    parse_helper c8Meta .SHORT (initState c8Meta) [strL "-chicago"]
        (strL "-p") true =
      .ok ((initState c8Meta).updState 1
            (optSet (c8Meta.optsL.getD 1 defaultSpec)
              ((initState c8Meta).stateOf 1)
              (some (strL "-chicago"))).2)
        [] true :=
  ⟨missing_value_rule.1 c8Meta .SHORT (initState c8Meta) (strL "-n") 0
      (by decide) (by decide),
   missing_value_rule.2.1 c8Meta .SHORT (initState c8Meta) (strL "-chicago")
      [] (strL "-n") 0 (by decide) (by decide) (by decide) (by decide),
   missing_value_rule.2.2 c8Meta .SHORT (initState c8Meta) (strL "-chicago")
      [] (strL "-p") 1 (strL "-chicago") (by decide) (by decide) (by decide)
      (by decide) (by decide) (by rfl)⟩

/-- Claim C10: when the string conversion of a value fails, `set` on a
`Single` or `Multi` option leaves the bound field and the `already_set`
flag untouched and only returns the conversion error, which the engine
reports as `InvalidValue` with the whole parse state unchanged. -/
theorem conversion_failure_no_mutation :
    (∀ (spec : OptSpec) (os : OptState) (v : CStr) (e : Errc),
      needArgument spec = true →
      spec.conv v = .error e →
      optSet spec os (some v) = (some e, os)) ∧
    (∀ (m : Meta) (a : ArgType) (st : PState) (v : CStr) (rest : List CStr)
       (flag : CStr) (newarg : Bool) (i : Nat) (e : Errc),
      m.query flag = some i →
      needArgument (m.optsL.getD i defaultSpec) = true →
      (newarg && (cstrHead v == '-') &&
        !optAllowHyphen (m.optsL.getD i defaultSpec)) = false →
      (st.stateOf i).setFlag = false →
      (m.optsL.getD i defaultSpec).conv (stripEq newarg v) = .error e →
      parse_helper m a st (v :: rest) flag newarg =
        .err (.invalidValue flag (stripEq newarg v) e) st) := by
  constructor
  · intro spec os v e hneed hconv
    cases hkind : spec.kind with
    | flagK => rw [needArgument, hkind] at hneed; cases hneed
    | counterK => rw [needArgument, hkind] at hneed; cases hneed
    | single => simp [optSet, hkind, hconv]
    | multi => simp [optSet, hkind, hconv]
  · intro m a st v rest flag newarg i e hq hneed hguard hset hconv
    unfold parse_helper
    rw [hq]
    dsimp only
    set spec := m.optsL.getD i defaultSpec with hspec
    cases hkind : spec.kind with
    | flagK => rw [needArgument, hkind] at hneed; cases hneed
    | counterK => rw [needArgument, hkind] at hneed; cases hneed
    | single => simp [hneed, hguard, hset, optSet, hkind, hconv]
    | multi => simp [hneed, hguard, hset, optSet, hkind, hconv]

/-- Witness for C10: `-z` is bound to an 8-bit integer; converting the
text `"zz"` fails, the state is unchanged, and the engine reports
`InvalidValue`. -/
theorem conversion_failure_no_mutation_witness :
    optSet (zIntMeta.optsL.getD 0 defaultSpec) {} (some (strL "zz")) =
      (some .invalidArgument, {}) ∧
    parse_helper zIntMeta .SHORT (initState zIntMeta) [strL "zz"]
        (strL "-z") true =
      .err (.invalidValue (strL "-z") (stripEq true (strL "zz"))
            .invalidArgument)
        (initState zIntMeta) :=
  ⟨conversion_failure_no_mutation.1 (zIntMeta.optsL.getD 0 defaultSpec) {}
      (strL "zz") .invalidArgument (by decide) (by rfl),
   conversion_failure_no_mutation.2 zIntMeta .SHORT (initState zIntMeta)
      (strL "zz") [] (strL "-z") true 0 .invalidArgument (by decide)
      (by decide) (by decide) (by decide) (by rfl)⟩

/-- Declarative complete-consumption numeral reading, used to
characterise the converter against the spec: the base-`base` value of
`s` continuing from accumulator `acc`, defined only when every character
is a valid digit. -/
def allDigitsVal (base : Nat) (acc : Nat) : CStr → Option Nat
  | [] => some acc
  | c :: cs =>
    match digitVal base c with
    | some d => allDigitsVal base (acc * base + d) cs
    | none => none

/-- Modelled from the spec's conversion contract, with the base selection
the source actually implements (no second-character guard on the `"0"`
branch): choose base 16 after a `"0x"` prefix, base 8 after a leading
`"0"`, else base 10, and succeed exactly when the remainder is a
nonempty all-digit text whose value is representable. -/
def spec_int_value (max : Nat) (s : CStr) : Option Nat :=
  let p : Nat × CStr :=
    if s.take 2 = ['0', 'x'] then (16, s.drop 2)
    else if cstrHead s = '0' then (8, s.drop 1)
    else (10, s)
  if p.2 = [] then none
  else
    match allDigitsVal p.1 0 p.2 with
    | some v => if v ≤ max then some v else none
    | none => none

theorem digitVal_nul (base : Nat) : digitVal base '\x00' = none := by
  simp [digitVal]

theorem fromCharsLoop_eq_allDigits (base : Nat) : ∀ (s : CStr) (acc v : Nat),
    fromCharsLoop base acc s = (v, []) ↔ allDigitsVal base acc s = some v
  | [], acc, v => by
      unfold fromCharsLoop allDigitsVal
      simp [eq_comm]
  | c :: cs, acc, v => by
      unfold fromCharsLoop allDigitsVal
      cases hd : digitVal base c with
      | some d => exact fromCharsLoop_eq_allDigits base cs (acc * base + d) v
      | none => simp

theorem fromChars_ok_iff (max base : Nat) (s : CStr) (v : Nat) :
    fromChars max base s = .ok (v, []) ↔
      (s ≠ [] ∧ allDigitsVal base 0 s = some v ∧ v ≤ max) := by
  unfold fromChars
  cases hd : digitVal base (cstrHead s) with
  | none =>
      constructor
      · intro h; cases h
      · rintro ⟨hne, hall, hle⟩
        exfalso
        cases s with
        | nil => exact hne rfl
        | cons c cs =>
            rw [show cstrHead (c :: cs) = c from rfl] at hd
            rw [allDigitsVal, hd] at hall
            cases hall
  | some d =>
      rcases hfc : fromCharsLoop base 0 s with ⟨w, rest⟩
      simp only [hfc]
      constructor
      · intro h
        split at h
        · next hle =>
            injection h with h1
            injection h1 with hw hrest
            refine ⟨?_, ?_, ?_⟩
            · intro hnil
              rw [hnil, show cstrHead ([] : CStr) = '\x00' from rfl,
                digitVal_nul] at hd
              cases hd
            · exact (fromCharsLoop_eq_allDigits base s 0 v).mp
                (by rw [hfc, hw, hrest])
            · rw [← hw]; exact hle
        · cases h
      · rintro ⟨hne, hall, hle⟩
        have hre := (fromCharsLoop_eq_allDigits base s 0 v).mpr hall
        rw [hfc] at hre
        injection hre with hw hrest
        rw [hw, hrest]
        simp [hle]

theorem int_result_ok_iff (r : Except Errc (Nat × CStr)) (v : Nat) :
    (match r with
     | .ok (w, rest) =>
        if rest = [] then (.ok w : Except Errc Nat)
        else .error .invalidArgument
     | .error e => .error e) = .ok v ↔ r = .ok (v, []) := by
  rcases r with e | ⟨w, rest⟩
  · simp
  · cases rest with
    | nil => simp [eq_comm]
    | cons c cs => simp

theorem spec_side_iff (max base : Nat) (body : CStr) (v : Nat) :
    (if body = [] then none
     else
       match allDigitsVal base 0 body with
       | some w => if w ≤ max then some w else none
       | none => none) = some v ↔
      (body ≠ [] ∧ allDigitsVal base 0 body = some v ∧ v ≤ max) := by
  constructor
  · intro h
    split at h
    · cases h
    · next hne =>
        cases hall : allDigitsVal base 0 body with
        | none => rw [hall] at h; cases h
        | some w =>
            rw [hall] at h
            dsimp only at h
            split at h
            · next hle =>
                injection h with hw
                subst hw
                exact ⟨hne, rfl, hle⟩
            · cases h
  · rintro ⟨hne, hall, hle⟩
    rw [if_neg hne, hall]
    simp [hle]

theorem int_from_str_eq_fromChars (max : Nat) (s : CStr) (v : Nat) :
    int_from_str max s = .ok v ↔
      (if cstrHead s = '0' then
        if cstrHead (cstrTail s) = 'x' then fromChars max 16 (s.drop 2)
        else fromChars max 8 (s.drop 1)
      else fromChars max 10 s) = .ok (v, []) := by
  unfold int_from_str
  exact int_result_ok_iff _ v

theorem selector_eq (s : CStr) :
    (if s.take 2 = ['0', 'x'] then ((16 : Nat), s.drop 2)
     else if cstrHead s = '0' then (8, s.drop 1)
     else (10, s)) =
      (if cstrHead s = '0' then
        if cstrHead (cstrTail s) = 'x' then ((16 : Nat), s.drop 2)
        else (8, s.drop 1)
      else (10, s)) := by
  match s with
  | [] => decide
  | [c] =>
      by_cases h0 : c = '0'
      · subst h0; decide
      · rw [if_neg (show ¬ ([c] : CStr).take 2 = ['0', 'x'] by simp),
          if_neg (show ¬ cstrHead ([c] : CStr) = '0' from h0),
          if_neg (show ¬ cstrHead ([c] : CStr) = '0' from h0)]
  | c :: c2 :: cs =>
      by_cases h0 : c = '0'
      · subst h0
        by_cases hx : c2 = 'x'
        · subst hx
          rw [if_pos (show ('0' :: 'x' :: cs).take 2 = ['0', 'x'] from rfl),
            if_pos (show cstrHead ('0' :: 'x' :: cs) = '0' from rfl),
            if_pos (show cstrHead (cstrTail ('0' :: 'x' :: cs)) = 'x' from rfl)]
        · rw [if_neg (show ¬ ('0' :: c2 :: cs).take 2 = ['0', 'x'] by simp [hx]),
            if_pos (show cstrHead ('0' :: c2 :: cs) = '0' from rfl),
            if_pos (show cstrHead ('0' :: c2 :: cs) = '0' from rfl),
            if_neg (show ¬ cstrHead (cstrTail ('0' :: c2 :: cs)) = 'x' from hx)]
      · rw [if_neg (show ¬ (c :: c2 :: cs).take 2 = ['0', 'x'] by simp [h0]),
          if_neg (show ¬ cstrHead (c :: c2 :: cs) = '0' from h0),
          if_neg (show ¬ cstrHead (c :: c2 :: cs) = '0' from h0)]

/-- Claim C6 counterexample: converting the one-character text `"0"`
does not succeed with 0 — the converter takes the base-8 branch (there is
no second-character guard) on the empty remainder and fails with
`invalid_argument`. -/
theorem int_from_str_zero_fails :
    int_from_str 255 ['0'] = .error .invalidArgument ∧
    int_from_str 255 ['0'] ≠ .ok 0 :=
  ⟨rfl, fun h => Except.noConfusion h⟩

/-- Claim C6 as amended: a `"0x"` prefix selects base 16 on the text
after the prefix, any other leading `"0"` selects base 8 on the text
after the `"0"` — including the bare text `"0"`, whose empty remainder
makes the conversion fail — and all other text is parsed base 10; the
conversion succeeds exactly when the selected remainder is a nonempty
all-digit text (the entire remaining text consumed, no trailing garbage)
whose value is representable. -/
theorem int_conversion_characterisation :
    (∀ (max : Nat) (s : CStr) (v : Nat),
      int_from_str max s = .ok v ↔ spec_int_value max s = some v) ∧
    int_from_str 255 ['0'] = .error .invalidArgument ∧
    int_from_str 255 (strL "0x1f") = .ok 31 ∧
    int_from_str 255 (strL "017") = .ok 15 ∧
    int_from_str 255 (strL "12") = .ok 12 ∧
    int_from_str 255 (strL "12a") = .error .invalidArgument ∧
    int_from_str 255 (strL "999") = .error .resultOutOfRange := by
  refine ⟨?_, rfl, rfl, rfl, rfl, rfl, rfl⟩
  intro max s v
  rw [int_from_str_eq_fromChars]
  unfold spec_int_value
  rw [selector_eq]
  by_cases h0 : cstrHead s = '0'
  · by_cases hx : cstrHead (cstrTail s) = 'x'
    · rw [if_pos h0, if_pos hx, if_pos h0, if_pos hx, fromChars_ok_iff]
      exact (spec_side_iff max 16 (s.drop 2) v).symm
    · rw [if_pos h0, if_neg hx, if_pos h0, if_neg hx, fromChars_ok_iff]
      exact (spec_side_iff max 8 (s.drop 1) v).symm
  · rw [if_neg h0, if_neg h0, fromChars_ok_iff]
    exact (spec_side_iff max 10 s v).symm

theorem stateOf_updState_ne (st : PState) {i j : Nat} (os : OptState)
    (h : j ≠ i) : (st.updState i os).stateOf j = st.stateOf j := by
  simp [PState.stateOf, PState.updState, List.getD_eq_getElem?_getD,
    List.getElem?_set_ne (Ne.symm h)]

theorem setFlag_updState_self (st : PState) (i : Nat) (os : OptState)
    (h : os.setFlag = (st.stateOf i).setFlag) :
    ((st.updState i os).stateOf i).setFlag = (st.stateOf i).setFlag := by
  simp only [PState.stateOf, PState.updState, List.getD_eq_getElem?_getD,
    List.getElem?_set_self'] at *
  cases hcell : st.states[i]? with
  | none => simp
  | some a => rw [hcell] at h; simpa using h

theorem stateOf_initState (m : Meta) (i : Nat) :
    (initState m).stateOf i = initOf (m.optsL.getD i defaultSpec) := by
  simp only [initState, PState.stateOf, List.getD_eq_getElem?_getD,
    List.getElem?_map]
  cases h : m.optsL[i]? with
  | none => simp [initOf, defaultSpec]
  | some spec => simp

/-- The parse-state invariant behind `Counter`/`Multi` reusability: their
wrappers' `set` never raises `_set_flag`, so it stays `false` for the
whole parse. -/
def ctrMultiUnset (m : Meta) (st : PState) : Prop :=
  ∀ i, ((m.optsL.getD i defaultSpec).kind = .counterK ∨
        (m.optsL.getD i defaultSpec).kind = .multi) →
    (st.stateOf i).setFlag = false

theorem ctrMultiUnset_init (m : Meta) : ctrMultiUnset m (initState m) := by
  intro i _
  rw [stateOf_initState]
  rfl

theorem optSet_setFlag_of_ctrMulti (spec : OptSpec) (os : OptState)
    (v : Option CStr)
    (hk : spec.kind = .counterK ∨ spec.kind = .multi) :
    ((optSet spec os v).2).setFlag = os.setFlag := by
  rcases hk with hk | hk
  · simp [optSet, hk]
  · cases v with
    | none => simp [optSet, hk]
    | some s =>
        cases hc : spec.conv s with
        | ok w => simp [optSet, hk, hc]
        | error e => simp [optSet, hk, hc]

theorem parse_helper_err_state {m : Meta} {a : ArgType} {st : PState}
    {args : List CStr} {flag : CStr} {n : Bool} {e : ParseError} {st' : PState}
    (h : parse_helper m a st args flag n = .err e st') : st' = st := by
  unfold parse_helper at h
  repeat' split at h
  all_goals simp_all

theorem parse_helper_ok_inv {m : Meta} {a : ArgType} {st : PState}
    {args : List CStr} {flag : CStr} {n : Bool} {st' : PState}
    {args' : List CStr} {c : Bool}
    (h : parse_helper m a st args flag n = .ok st' args' c) :
    ∃ i v, m.query flag = some i ∧
      st' = st.updState i
        (optSet (m.optsL.getD i defaultSpec) (st.stateOf i) v).2 := by
  unfold parse_helper at h
  cases hq : m.query flag with
  | none => rw [hq] at h; cases h
  | some i =>
      rw [hq] at h
      dsimp only at h
      by_cases hneed : needArgument (m.optsL.getD i defaultSpec) = true
      · rw [if_pos hneed] at h
        cases args with
        | nil => cases h
        | cons v rest =>
            dsimp only at h
            split at h
            · cases h
            · split at h
              · cases h
              · rcases hos : optSet (m.optsL.getD i defaultSpec)
                    (st.stateOf i) (some (stripEq n v)) with ⟨oe, os⟩
                rw [hos] at h
                cases oe with
                | some e => cases h
                | none =>
                    injection h with h1 h2 h3
                    refine ⟨i, some (stripEq n v), rfl, ?_⟩
                    rw [hos]
                    exact h1.symm
      · rw [if_neg hneed] at h
        split at h
        · cases h
        · split at h
          · cases h
          · injection h with h1 h2 h3
            exact ⟨i, none, rfl, h1.symm⟩

theorem parse_helper_preserves_ctrMulti {m : Meta} {a : ArgType} {st : PState}
    {args : List CStr} {flag : CStr} {n : Bool} {st' : PState}
    {args' : List CStr} {c : Bool}
    (hc : ctrMultiUnset m st)
    (h : parse_helper m a st args flag n = .ok st' args' c) :
    ctrMultiUnset m st' := by
  obtain ⟨i, v, -, hst⟩ := parse_helper_ok_inv h
  subst hst
  intro j hj
  by_cases hji : j = i
  · subst hji
    rw [setFlag_updState_self]
    · exact hc j hj
    · rw [optSet_setFlag_of_ctrMulti _ _ _ hj]
  · rw [stateOf_updState_ne _ _ hji]
    exact hc j hj

theorem shortLoop_preserves_ctrMulti {m : Meta} : ∀ {cluster : List Char}
    {st : PState} {rest : List CStr} {st' : PState} {args' : List CStr}
    {c : Bool},
    ctrMultiUnset m st →
    shortLoop m st cluster rest = .ok st' args' c →
    ctrMultiUnset m st'
  | [], st, rest, st', args', c, hc, h => by
      unfold shortLoop at h; exact parse_helper_preserves_ctrMulti hc h
  | [_], st, rest, st', args', c, hc, h => by
      unfold shortLoop at h; exact parse_helper_preserves_ctrMulti hc h
  | c0 :: c1 :: cs, st, rest, st', args', c, hc, h => by
      unfold shortLoop at h
      cases heq : parse_helper m .SHORT st ((c1 :: cs) :: rest) ['-', c0] false with
      | err e st'' => rw [heq] at h; cases h
      | ok st'' args'' cc =>
          rw [heq] at h
          have hc'' := parse_helper_preserves_ctrMulti hc heq
          cases cc with
          | true =>
              injection h with h1 h2 h3
              subst h1
              exact hc''
          | false => exact shortLoop_preserves_ctrMulti hc'' h

theorem stepToken_preserves_ctrMulti {m : Meta} {st : PState} {tok : CStr}
    {rest : List CStr} {st' : PState} {args' : List CStr} {c : Bool}
    (hc : ctrMultiUnset m st)
    (h : stepToken m st tok rest = .ok st' args' c) :
    ctrMultiUnset m st' := by
  unfold stepToken at h
  split at h
  · exact shortLoop_preserves_ctrMulti hc h
  · split at h
    · exact parse_helper_preserves_ctrMulti hc h
    · exact parse_helper_preserves_ctrMulti hc h
  · cases h
  · injection h with h1 h2 h3
    subst h1
    intro j hj
    exact hc j hj

theorem parse_helper_multipleUse_inv {m : Meta} {a : ArgType} {st : PState}
    {args : List CStr} {flag : CStr} {n : Bool} {f : CStr} {st' : PState}
    (h : parse_helper m a st args flag n = .err (.multipleUse f) st') :
    f = flag ∧ st' = st ∧
      ∃ i, m.query flag = some i ∧ (st.stateOf i).setFlag = true := by
  unfold parse_helper at h
  cases hq : m.query flag with
  | none => rw [hq] at h; simp at h
  | some i =>
      rw [hq] at h
      dsimp only at h
      by_cases hneed : needArgument (m.optsL.getD i defaultSpec) = true
      · rw [if_pos hneed] at h
        cases args with
        | nil => simp at h
        | cons v rest =>
            dsimp only at h
            split at h
            · simp at h
            · split at h
              · next hset =>
                  injection h with h1 h2
                  injection h1 with h3
                  exact ⟨h3.symm, h2.symm, i, rfl, hset⟩
              · rcases hos : optSet (m.optsL.getD i defaultSpec)
                    (st.stateOf i) (some (stripEq n v)) with ⟨oe, os⟩
                rw [hos] at h
                cases oe with
                | some e => simp at h
                | none => cases h
      · rw [if_neg hneed] at h
        split at h
        · simp at h
        · split at h
          · next hset =>
              injection h with h1 h2
              injection h1 with h3
              exact ⟨h3.symm, h2.symm, i, rfl, hset⟩
          · cases h

theorem kind_of_set_of_ctrMulti {m : Meta} {st : PState}
    (hc : ctrMultiUnset m st) {i : Nat}
    (hset : (st.stateOf i).setFlag = true) :
    (m.optsL.getD i defaultSpec).kind = .single ∨
      (m.optsL.getD i defaultSpec).kind = .flagK := by
  cases hk : (m.optsL.getD i defaultSpec).kind with
  | single => exact .inl rfl
  | flagK => exact .inr rfl
  | counterK => rw [hc i (.inl hk)] at hset; cases hset
  | multi => rw [hc i (.inr hk)] at hset; cases hset

theorem shortLoop_multipleUse_inv {m : Meta} : ∀ {cluster : List Char}
    {st : PState} {rest : List CStr} {f : CStr} {st' : PState},
    ctrMultiUnset m st →
    shortLoop m st cluster rest = .err (.multipleUse f) st' →
    ∃ i, m.query f = some i ∧
      ((m.optsL.getD i defaultSpec).kind = .single ∨
        (m.optsL.getD i defaultSpec).kind = .flagK)
  | [], st, rest, f, st', hc, h => by
      unfold shortLoop at h
      obtain ⟨hf, -, i, hq, hset⟩ := parse_helper_multipleUse_inv h
      exact ⟨i, hf ▸ hq, kind_of_set_of_ctrMulti hc hset⟩
  | [_], st, rest, f, st', hc, h => by
      unfold shortLoop at h
      obtain ⟨hf, -, i, hq, hset⟩ := parse_helper_multipleUse_inv h
      exact ⟨i, hf ▸ hq, kind_of_set_of_ctrMulti hc hset⟩
  | c0 :: c1 :: cs, st, rest, f, st', hc, h => by
      unfold shortLoop at h
      cases heq : parse_helper m .SHORT st ((c1 :: cs) :: rest) ['-', c0] false with
      | err e st'' =>
          rw [heq] at h
          injection h with h1 h2
          subst h1
          obtain ⟨hf, -, i, hq, hset⟩ := parse_helper_multipleUse_inv heq
          exact ⟨i, hf ▸ hq, kind_of_set_of_ctrMulti hc hset⟩
      | ok st'' args'' cc =>
          rw [heq] at h
          cases cc with
          | true => cases h
          | false =>
              exact shortLoop_multipleUse_inv
                (parse_helper_preserves_ctrMulti hc heq) h

theorem stepToken_multipleUse_inv {m : Meta} {st : PState} {tok : CStr}
    {rest : List CStr} {f : CStr} {st' : PState}
    (hc : ctrMultiUnset m st)
    (h : stepToken m st tok rest = .err (.multipleUse f) st') :
    ∃ i, m.query f = some i ∧
      ((m.optsL.getD i defaultSpec).kind = .single ∨
        (m.optsL.getD i defaultSpec).kind = .flagK) := by
  unfold stepToken at h
  split at h
  · exact shortLoop_multipleUse_inv hc h
  · split at h
    · obtain ⟨hf, -, i, hq, hset⟩ := parse_helper_multipleUse_inv h
      exact ⟨i, hf ▸ hq, kind_of_set_of_ctrMulti hc hset⟩
    · obtain ⟨hf, -, i, hq, hset⟩ := parse_helper_multipleUse_inv h
      exact ⟨i, hf ▸ hq, kind_of_set_of_ctrMulti hc hset⟩
  · injection h with h1 h2
    injection h1
  · cases h

theorem checkRequired_not_multipleUse {m : Meta} {st : PState} {f : CStr}
    {st' : PState} : checkRequired m st ≠ .err (.multipleUse f) st' := by
  intro h
  unfold checkRequired at h
  dsimp only at h
  split at h
  · cases h
  · injection h with h1 h2
    injection h1

theorem mainLoopF_nil (m : Meta) (fuel : Nat) (st : PState) :
    mainLoopF m fuel st [] = some (checkRequired m st) := by
  cases fuel <;> rfl

theorem mainLoopF_multipleUse_inv {m : Meta} : ∀ {fuel : Nat} {st : PState}
    {args : List CStr} {f : CStr} {st' : PState},
    ctrMultiUnset m st →
    mainLoopF m fuel st args = some (.err (.multipleUse f) st') →
    ∃ i, m.query f = some i ∧
      ((m.optsL.getD i defaultSpec).kind = .single ∨
        (m.optsL.getD i defaultSpec).kind = .flagK)
  | fuel, st, [], f, st', hc, h => by
      rw [mainLoopF_nil] at h
      injection h with h1
      exact absurd h1 checkRequired_not_multipleUse
  | 0, st, tok :: rest, f, st', hc, h => by
      cases h
  | fuel + 1, st, tok :: rest, f, st', hc, h => by
      unfold mainLoopF at h
      cases heq : stepToken m st tok rest with
      | err e st'' =>
          rw [heq] at h
          dsimp only at h
          injection h with h1
          injection h1 with h2 h3
          subst h2
          exact stepToken_multipleUse_inv hc heq
      | ok st'' args'' cc =>
          rw [heq] at h
          dsimp only at h
          split at h
          · injection h with h1; cases h1
          · split at h
            · injection h with h1; cases h1
            · exact mainLoopF_multipleUse_inv
                (stepToken_preserves_ctrMulti hc heq) h

/-- Claim C2 counterexample: a second occurrence of a `Single` option that
itself fails value acquisition does not yield `MultipleUse` — with `-n` a
single-use string option, `-n v -n` aborts with `MissingValue` (that
check precedes the already-set check), not `MultipleUse`. -/
theorem second_use_preempted_by_missing_value :
    greet nMeta [strL "-n", strL "v", strL "-n"] =
      .err (.missingValue (strL "-n"))
        ⟨[{ setFlag := true, single := ['v'] }, {}, {}], []⟩ ∧
    isMultipleUseOutcome (greet nMeta [strL "-n", strL "v", strL "-n"]) =
      false := ⟨by decide, by decide⟩

/-- Claim C2 as amended: for `Single` and `Flag` options the already-set
state rises at most once per parse; a second occurrence that reaches the
set stage — one that supplies its value when needed, and for which the
value-acquisition checks (missing value, hyphen rule, long-form inline
`=` on a no-value option) pass — aborts with `MultipleUse`, whichever of
the short or long form either occurrence used (both forms resolve to the
same descriptor); occurrences failing those earlier checks abort with
`MissingValue` or `UnexpectedValue` instead; and a whole parse can report
`MultipleUse` only for a `Single` or `Flag` descriptor, never for
`Counter` or `Multi`. -/
theorem multiple_use_rule :
    (∀ (m : Meta) (a : ArgType) (st : PState) (v : CStr) (rest : List CStr)
       (flag : CStr) (newarg : Bool) (i : Nat),
      m.query flag = some i →
      needArgument (m.optsL.getD i defaultSpec) = true →
      (newarg && (cstrHead v == '-') &&
        !optAllowHyphen (m.optsL.getD i defaultSpec)) = false →
      (st.stateOf i).setFlag = true →
      parse_helper m a st (v :: rest) flag newarg =
        .err (.multipleUse flag) st) ∧
    (∀ (m : Meta) (a : ArgType) (st : PState) (args : List CStr)
       (flag : CStr) (newarg : Bool) (i : Nat),
      m.query flag = some i →
      needArgument (m.optsL.getD i defaultSpec) = false →
      ((a == .LONG) && !newarg && (cstrHead (args.headD []) == '=')) = false →
      (st.stateOf i).setFlag = true →
      parse_helper m a st args flag newarg = .err (.multipleUse flag) st) ∧
    (∀ (m : Meta) (args : List CStr) (f : CStr) (st' : PState),
      greet m args = .err (.multipleUse f) st' →
      ∃ i, m.query f = some i ∧
        ((m.optsL.getD i defaultSpec).kind = .single ∨
          (m.optsL.getD i defaultSpec).kind = .flagK)) := by
  refine ⟨?_, ?_, ?_⟩
  · intro m a st v rest flag newarg i hq hneed hguard hset
    unfold parse_helper
    rw [hq]
    dsimp only
    set spec := m.optsL.getD i defaultSpec with hspec
    simp [hneed, hguard, hset]
  · intro m a st args flag newarg i hq hneed hguard hset
    unfold parse_helper
    rw [hq]
    dsimp only
    set spec := m.optsL.getD i defaultSpec with hspec
    simp only [hneed, hset]
    simp [hneed, hset]
    intro h1 h2
    rw [h1, h2] at hguard
    simpa using hguard
  · intro m args f st' h
    have he := greet_eq_mainLoopF m args
    rw [h] at he
    exact mainLoopF_multipleUse_inv (ctrMultiUnset_init m) he

/-- Witness for the amended C2: a second `-n` with a value in hand and a
second `-x` both yield `MultipleUse` with the state unchanged. -/
theorem multiple_use_rule_witness :
    parse_helper nMeta .SHORT
        ⟨[{ setFlag := true, single := ['v'] }, {}, {}], []⟩ [strL "w"]
        (strL "-n") true =
      .err (.multipleUse (strL "-n"))
        ⟨[{ setFlag := true, single := ['v'] }, {}, {}], []⟩ ∧
    parse_helper xMeta .SHORT
        ⟨[{ setFlag := true, flagVal := true }, {}, {}], []⟩ []
        (strL "-x") true =
      .err (.multipleUse (strL "-x"))
        ⟨[{ setFlag := true, flagVal := true }, {}, {}], []⟩ :=
  ⟨multiple_use_rule.1 nMeta .SHORT
      ⟨[{ setFlag := true, single := ['v'] }, {}, {}], []⟩ (strL "w") []
      (strL "-n") true 0 (by decide) (by decide) (by decide) (by decide),
   multiple_use_rule.2.1 xMeta .SHORT
      ⟨[{ setFlag := true, flagVal := true }, {}, {}], []⟩ []
      (strL "-x") true 0 (by decide) (by decide) (by decide) (by decide)⟩

theorem parse_helper_not_missingOptions {m : Meta} {a : ArgType}
    {st : PState} {args : List CStr} {flag : CStr} {n : Bool} {L : List Nat}
    {st' : PState}
    (h : parse_helper m a st args flag n = .err (.missingOptions L) st') :
    False := by
  unfold parse_helper at h
  repeat' split at h
  all_goals simp_all

theorem shortLoop_not_missingOptions {m : Meta} : ∀ {cluster : List Char}
    {st : PState} {rest : List CStr} {L : List Nat} {st' : PState},
    shortLoop m st cluster rest = .err (.missingOptions L) st' → False
  | [], st, rest, L, st', h => by
      unfold shortLoop at h; exact parse_helper_not_missingOptions h
  | [_], st, rest, L, st', h => by
      unfold shortLoop at h; exact parse_helper_not_missingOptions h
  | c0 :: c1 :: cs, st, rest, L, st', h => by
      unfold shortLoop at h
      cases heq : parse_helper m .SHORT st ((c1 :: cs) :: rest) ['-', c0] false with
      | err e st'' =>
          rw [heq] at h
          injection h with h1 h2
          subst h1
          exact parse_helper_not_missingOptions heq
      | ok st'' args'' cc =>
          rw [heq] at h
          cases cc with
          | true => cases h
          | false => exact shortLoop_not_missingOptions h

theorem stepToken_not_missingOptions {m : Meta} {st : PState} {tok : CStr}
    {rest : List CStr} {L : List Nat} {st' : PState}
    (h : stepToken m st tok rest = .err (.missingOptions L) st') : False := by
  unfold stepToken at h
  split at h
  · exact shortLoop_not_missingOptions h
  · split at h
    · exact parse_helper_not_missingOptions h
    · exact parse_helper_not_missingOptions h
  · injection h with h1 h2
    injection h1
  · cases h

theorem checkRequired_ok_inv {m : Meta} {st st' : PState}
    (h : checkRequired m st = .ok st') :
    st' = st ∧ m.requiredIdxs.filter (fun i => !(st.stateOf i).setFlag) = [] := by
  unfold checkRequired at h
  dsimp only at h
  split at h
  · next hemp =>
      injection h with h1
      exact ⟨h1.symm, by simpa using hemp⟩
  · cases h

theorem checkRequired_err_inv {m : Meta} {st : PState} {L : List Nat}
    {st' : PState}
    (h : checkRequired m st = .err (.missingOptions L) st') :
    st' = st ∧ L = m.requiredIdxs.filter (fun i => !(st.stateOf i).setFlag) ∧
      L ≠ [] := by
  unfold checkRequired at h
  dsimp only at h
  split at h
  · cases h
  · next hemp =>
      injection h with h1 h2
      injection h1 with h3
      refine ⟨h2.symm, h3.symm, ?_⟩
      rw [← h3]
      simpa using hemp

theorem helpSet_init (m : Meta) : helpSet m (initState m) = false := by
  rw [helpSet, stateOf_initState]
  rfl

theorem versionSet_init (m : Meta) : versionSet m (initState m) = false := by
  rw [versionSet, stateOf_initState]
  rfl

theorem mainLoopF_ok_inv {m : Meta} : ∀ {fuel : Nat} {st : PState}
    {args : List CStr} {st' : PState},
    mainLoopF m fuel st args = some (.ok st') →
    m.requiredIdxs.filter (fun i => !(st'.stateOf i).setFlag) = []
  | fuel, st, [], st', h => by
      rw [mainLoopF_nil] at h
      injection h with h1
      obtain ⟨hst, hemp⟩ := checkRequired_ok_inv h1
      rw [hst]
      exact hemp
  | 0, st, tok :: rest, st', h => by cases h
  | fuel + 1, st, tok :: rest, st', h => by
      unfold mainLoopF at h
      cases heq : stepToken m st tok rest with
      | err e st'' =>
          rw [heq] at h
          dsimp only at h
          injection h with h1
          cases h1
      | ok st'' args'' cc =>
          rw [heq] at h
          dsimp only at h
          split at h
          · injection h with h1; cases h1
          · split at h
            · injection h with h1; cases h1
            · exact mainLoopF_ok_inv h

theorem mainLoopF_missingOptions_inv {m : Meta} : ∀ {fuel : Nat}
    {st : PState} {args : List CStr} {L : List Nat} {st' : PState},
    helpSet m st = false → versionSet m st = false →
    mainLoopF m fuel st args = some (.err (.missingOptions L) st') →
    L = m.requiredIdxs.filter (fun i => !(st'.stateOf i).setFlag) ∧
      L ≠ [] ∧ helpSet m st' = false ∧ versionSet m st' = false
  | fuel, st, [], L, st', hH, hV, h => by
      rw [mainLoopF_nil] at h
      injection h with h1
      obtain ⟨hst, hL, hne⟩ := checkRequired_err_inv h1
      subst hst
      exact ⟨hL, hne, hH, hV⟩
  | 0, st, tok :: rest, L, st', hH, hV, h => by cases h
  | fuel + 1, st, tok :: rest, L, st', hH, hV, h => by
      unfold mainLoopF at h
      cases heq : stepToken m st tok rest with
      | err e st'' =>
          rw [heq] at h
          dsimp only at h
          injection h with h1
          injection h1 with h2 h3
          subst h2
          exact absurd heq (fun hh => stepToken_not_missingOptions hh)
      | ok st'' args'' cc =>
          rw [heq] at h
          dsimp only at h
          split at h
          · injection h with h1; cases h1
          · split at h
            · injection h with h1; cases h1
            · next hH'' hV'' =>
                exact mainLoopF_missingOptions_inv
                  (by simpa using hH'') (by simpa using hV'') h

theorem requiredIdxs_filter (m : Meta) (st : PState) :
    m.requiredIdxs.filter (fun i => !(st.stateOf i).setFlag) =
      (List.range m.optsL.length).filter
        (fun i => optRequired (m.optsL.getD i defaultSpec) &&
          !(st.stateOf i).setFlag) := by
  unfold Meta.requiredIdxs
  rw [List.filter_filter]
  exact List.filter_congr (fun a _ => Bool.and_comm _ _)

/-- Claim C5: when the main loop terminates normally without help or
version having been triggered, every required option still unset is
collected, and if any exist a single `MissingOption` error reports all of
them in declaration order — equivalently, the reported list is exactly
the ascending-index filter of required-and-unset descriptors, it is
nonempty, and a successful parse leaves no required option unset. -/
theorem missing_required_collected :
    (∀ (m : Meta) (args : List CStr) (L : List Nat) (st' : PState),
      greet m args = .err (.missingOptions L) st' →
      L = (List.range m.optsL.length).filter
            (fun i => optRequired (m.optsL.getD i defaultSpec) &&
              !(st'.stateOf i).setFlag) ∧
      L ≠ [] ∧ helpSet m st' = false ∧ versionSet m st' = false) ∧
    (∀ (m : Meta) (args : List CStr) (st' : PState),
      greet m args = .ok st' →
      ∀ i, optRequired (m.optsL.getD i defaultSpec) = true →
        (st'.stateOf i).setFlag = true) := by
  constructor
  · intro m args L st' h
    have he := greet_eq_mainLoopF m args
    rw [h] at he
    obtain ⟨hL, hne, hH, hV⟩ :=
      mainLoopF_missingOptions_inv (helpSet_init m) (versionSet_init m) he
    exact ⟨by rw [hL, requiredIdxs_filter], hne, hH, hV⟩
  · intro m args st' h i hreq
    have he := greet_eq_mainLoopF m args
    rw [h] at he
    have hemp := mainLoopF_ok_inv he
    rw [requiredIdxs_filter] at hemp
    by_cases hi : i < m.optsL.length
    · have hni := List.filter_eq_nil_iff.mp hemp i (List.mem_range.mpr hi)
      simp only [hreq, Bool.true_and, Bool.not_eq_true',
        Bool.not_eq_true] at hni
      simpa using hni
    · exfalso
      rw [List.getD_eq_default _ _ (Nat.le_of_not_lt hi)] at hreq
      simp [optRequired, defaultSpec] at hreq

/-- Witness for C5: with two required options `-r` and `-u` and an empty
argument vector, the reported list is exactly both indices in declaration
order. -/
theorem missing_required_collected_witness :
    ([0, 1] : List Nat) =
      (List.range reqMeta.optsL.length).filter
        (fun i => optRequired (reqMeta.optsL.getD i defaultSpec) &&
          !((initState reqMeta).stateOf i).setFlag) ∧
    ([0, 1] : List Nat) ≠ [] ∧
    helpSet reqMeta (initState reqMeta) = false ∧
    versionSet reqMeta (initState reqMeta) = false :=
  missing_required_collected.1 reqMeta [] [0, 1] (initState reqMeta)
    (by decide)

/-- Witness for the amended C6 at a concrete input: the characterisation
applied to the text `0x1f` produces the declarative value 31. -/
theorem int_conversion_characterisation_witness :
    spec_int_value 255 (strL "0x1f") = some 31 :=
  (int_conversion_characterisation.1 255 (strL "0x1f") 31).mp (by rfl)

end Greet
